import Mathlib

/-!
Verification development for the spiegel clipboard manager frontend.

The definitions below are shallow embeddings of the TypeScript/React source
files of the repository.  React components are embedded as explicit state
machines: component state (useState hooks) becomes a structure, DOM / Tauri
events become an inductive event type, and each event is processed by the
corresponding handler followed by the component effects (useEffect hooks),
which are applied in declaration order and gated on a change of their
dependency arrays, mirroring React's scheduling.  Calls to the Tauri backend
(`invoke`) are recorded in the state (a list of submitted clips, a counter of
close requests, ...), since the backend itself is outside the frontend code.
-/

namespace Spiegel

/-- JavaScript truthiness for an optional string value: `undefined` and the
empty string are falsy, every other string is truthy. -/
def truthy : Option String → Bool
  | none => false
  | some s => !(s == "")

/-- JavaScript strict equality `a === b` where `a : string` and
`b : string | undefined`: false when `b` is `undefined`. -/
def jsStrEq (a : String) : Option String → Bool
  | none => false
  | some b => a == b

/-- JavaScript `String.prototype.trim`: strip leading and trailing
whitespace. -/
def jsTrim (s : String) : String :=
  ⟨((s.data.dropWhile Char.isWhitespace).reverse.dropWhile Char.isWhitespace).reverse⟩

/-- JavaScript `String.prototype.toLowerCase` (on the ASCII range the
recorded keys and categories use). -/
def lowerStr (s : String) : String := ⟨s.data.map Char.toLower⟩

/-- JavaScript `String.prototype.toUpperCase` (on the ASCII range the
recorded keys use). -/
def upperStr (s : String) : String := ⟨s.data.map Char.toUpper⟩

/-- JavaScript `a.startsWith(b)`. -/
def jsStartsWith (a b : String) : Bool := b.data.isPrefixOf a.data

/-- JavaScript `Array.prototype.join(sep)`. -/
def jsJoin (sep : String) : List String → String
  | [] => ""
  | [x] => x
  | x :: xs => x ++ sep ++ jsJoin sep xs

/-- JavaScript `s.replace(/[-_]/g, " ")`. -/
def replaceDashUnderscore (s : String) : String :=
  ⟨s.data.map fun c => if c = '-' ∨ c = '_' then ' ' else c⟩

/-- Auxiliary for `s.replace(/\s+/g, " ")`: collapse every maximal run of
whitespace characters into a single space. -/
def collapseWsAux : List Char → List Char
  | [] => []
  | [c] => if c.isWhitespace then [' '] else [c]
  | c1 :: c2 :: rest =>
    if c1.isWhitespace ∧ c2.isWhitespace then collapseWsAux (c2 :: rest)
    else (if c1.isWhitespace then ' ' else c1) :: collapseWsAux (c2 :: rest)

/-- JavaScript `s.replace(/\s+/g, " ")`. -/
def collapseWhitespace (s : String) : String := ⟨collapseWsAux s.data⟩

/-- Auxiliary for `jsIncludes`: does `needle` occur contiguously in the
haystack? -/
def listContainsSub (needle : List Char) : List Char → Bool
  | [] => needle.isEmpty
  | c :: t => needle.isPrefixOf (c :: t) || listContainsSub needle t

/-- JavaScript `hay.includes(needle)`. -/
def jsIncludes (hay needle : String) : Bool := listContainsSub needle.data hay.data

/-! ## CategoryFilters.tsx : the fixed category list -/

/-- The `categories` array exported by `CategoryFilters.tsx`. -/
def categories : List String :=
  ["code_snippet", "technical_advice", "documentation", "url", "communication",
   "notes", "reference", "creative", "business", "quotes", "academic",
   "errors", "other"]

/-! ## ClipToolbar.tsx and CategoryCombobox.tsx : the Capture Session toolbar

The toolbar window renders `ClipToolbar`, which holds the state
`clipData / userCategory / isSaving` and renders a `CategoryInput`
(from `CategoryCombobox.tsx`) holding `inputValue / isInitialized /
showInput`.  We embed the two components together as one machine, because
the Capture Session claims quantify over the states the whole surface can
reach: key events only exist while the text `Input` element is rendered
(`showInput = true`) and focused, and button clicks only fire while the
button is enabled, exactly as in the DOM. -/

/-- The clip payload of a `clip-data` event (`ClipContext.clip` in
`ClipToolbar.tsx`): a tagged union of text and image content. -/
inductive Clip where
  | text (plain : String)
  | image (data : List Nat) (width : Nat) (height : Nat)
deriving DecidableEq, Repr

/-- Payload of the `clip-data` Tauri event (interface `ClipContext`). -/
structure ClipContext where
  suggested_category : Option String
  clip : Clip
deriving DecidableEq, Repr

/-- One recorded invocation of the `submit_clip` backend command: the
`userCategory` argument and the clip the serialized `clipJson` argument was
produced from (`clipData?.clip`, `none` when `clipData` is `null`). -/
structure SubmitCall where
  userCategory : String
  clip : Option Clip
deriving DecidableEq, Repr

/-- Combined state of `ClipToolbar` and its `CategoryInput`. -/
structure TState where
  /-- `ClipToolbar.clipData` -/
  clipData : Option ClipContext
  /-- `ClipToolbar.userCategory` -/
  userCategory : String
  /-- `ClipToolbar.isSaving` -/
  isSaving : Bool
  /-- The value of `userCategory` captured by the `clip-data` listener.  The
  listener is registered in a `useEffect` with an empty dependency array, so
  its callback closes over the `userCategory` constant of the initial render
  and keeps reading that captured value on every delivery. -/
  capturedUserCategory : String
  /-- `CategoryInput.inputValue` -/
  inputValue : String
  /-- `CategoryInput.isInitialized` -/
  isInitialized : Bool
  /-- `CategoryInput.showInput`: whether the text `Input` element is rendered
  (otherwise the badge button is rendered instead). -/
  showInput : Bool
  /-- Whether the text input is the focused element
  (`document.activeElement === inputRef.current`). -/
  focused : Bool
  /-- Invocations of the `submit_clip` command, in order. -/
  submitted : List SubmitCall
  /-- Number of invocations of the `close_toolbar_window` command. -/
  closeRequests : Nat
deriving DecidableEq, Repr

/-- The `aiSuggestion` prop passed to `CategoryInput`, i.e.
`clipData?.suggested_category`. -/
def aiSugg (s : TState) : Option String :=
  s.clipData.bind (·.suggested_category)

/-- The category submitted by `handleSave`:
`userCategory.trim() || clipData?.suggested_category || "Other"`. -/
def submitCategory (userCategory : String) (clipData : Option ClipContext) : String :=
  if jsTrim userCategory ≠ "" then jsTrim userCategory
  else
    let sugg := clipData.bind (·.suggested_category)
    if truthy sugg then sugg.getD "" else "Other"

/-- `ClipToolbar.handleSave`: sets `isSaving` and invokes `submit_clip` with
the category above and the JSON of `clipData?.clip`.  (The body has no guard
of its own; guards live on the button's `disabled` attribute only.) -/
def handleSave (s : TState) : TState :=
  { s with
    isSaving := true
    submitted := s.submitted ++
      [{ userCategory := submitCategory s.userCategory s.clipData
         clip := s.clipData.map (·.clip) }] }

/-- `ClipToolbar.handleCancel`: invokes `close_toolbar_window` only. -/
def handleCancel (s : TState) : TState :=
  { s with closeRequests := s.closeRequests + 1 }

/-- `CategoryInput`'s Tab completion: the first category whose lowercase form
extends the lowercase input strictly. -/
def tabMatch (inputValue : String) : Option String :=
  categories.find? fun cat =>
    jsStartsWith (lowerStr cat) (lowerStr inputValue) && lowerStr cat != lowerStr inputValue

/-- Events the Capture Session toolbar can receive. -/
inductive TEvent where
  /-- A `clip-data` Tauri event delivered to the listener. -/
  | clipData (payload : ClipContext)
  /-- The user edits the text input (`handleInputChange`), possible only
  while the input is rendered and focused. -/
  | typeInput (value : String)
  /-- Enter pressed in the input (forwarded to `ClipToolbar.handleKeyDown`). -/
  | keyEnter (shift : Bool)
  /-- Escape pressed in the input. -/
  | keyEscape
  /-- Tab pressed in the input (completion inside `CategoryInput`). -/
  | keyTab
  /-- The input gains focus. -/
  | focusInput
  /-- The input loses focus (`handleInputBlur`). -/
  | blurInput
  /-- Click on the suggestion badge (`handleBadgeClick`), disabled unless
  `aiSuggestion` is truthy; it shows and focuses the input. -/
  | clickBadge
  /-- Click on the save button, which has
  `disabled={isSaving || !clipData?.suggested_category}`. -/
  | clickSave
  /-- Click on the cancel button, which has `disabled={isSaving}`. -/
  | clickCancel
  /-- The `submit_clip` promise settles; the `finally` clause of
  `handleSave` clears `isSaving`. -/
  | saveSettled
deriving DecidableEq, Repr

/-- The event handler part of a step (before effects run). -/
def handler (s : TState) : TEvent → TState
  | .clipData p =>
    -- listener in ClipToolbar's mount effect: setClipData(payload) always;
    -- the prefill guard reads the captured (initial) userCategory.
    let s1 := { s with clipData := some p }
    if truthy p.suggested_category ∧ s.capturedUserCategory = "" then
      { s1 with userCategory := p.suggested_category.getD "" }
    else s1
  | .typeInput v =>
    if s.showInput ∧ s.focused then { s with inputValue := v, userCategory := v }
    else s
  | .keyEnter shift =>
    -- CategoryInput forwards Enter to ClipToolbar.handleKeyDown, which calls
    -- handleSave whenever shift is not held -- with no further guard.
    if s.showInput ∧ s.focused ∧ ¬shift then handleSave s else s
  | .keyEscape =>
    if s.showInput ∧ s.focused then
      -- CategoryInput consumes Escape when the input equals the suggestion
      -- (back to badge view); otherwise it reaches handleKeyDown → cancel.
      if truthy (aiSugg s) ∧ jsStrEq s.inputValue (aiSugg s) then
        { s with showInput := false, focused := false }
      else handleCancel s
    else s
  | .keyTab =>
    if s.showInput ∧ s.focused ∧ s.inputValue ≠ "" then
      match tabMatch s.inputValue with
      | some cat => { s with inputValue := cat, userCategory := cat }
      | none => s
    else s
  | .focusInput => if s.showInput then { s with focused := true } else s
  | .blurInput =>
    if s.showInput ∧ s.focused then
      let s1 := { s with focused := false }
      if truthy (aiSugg s) ∧ jsStrEq s.inputValue (aiSugg s) then
        { s1 with showInput := false }
      else s1
    else s
  | .clickBadge =>
    if ¬s.showInput ∧ truthy (aiSugg s) then
      { s with showInput := true, focused := true }
    else s
  | .clickSave =>
    if s.isSaving ∨ ¬truthy (aiSugg s) then s else handleSave s
  | .clickCancel =>
    if s.isSaving then s else handleCancel s
  | .saveSettled => { s with isSaving := false }

/-- The `showInput` value computed by `CategoryInput`'s third effect from its
dependencies `[aiSuggestion, inputValue]`. -/
def showInputOf (sugg : Option String) (inputValue : String) : Bool :=
  if ¬truthy sugg ∧ inputValue = "" then false
  else if (match sugg with | none => true | some v => inputValue ≠ v) then true
  else false

/-- The first `useEffect` of `CategoryInput`: seed the input with the AI
suggestion when it arrives while the value is still empty; dependency array
`[aiSuggestion, isInitialized, value, onChange]`. -/
def effectInit (prev s : TState) : TState :=
  if ((aiSugg prev, prev.isInitialized, prev.userCategory) ≠
        (aiSugg s, s.isInitialized, s.userCategory)) ∧
      truthy (aiSugg s) ∧ ¬s.isInitialized ∧ s.userCategory = "" then
    { s with
      inputValue := (aiSugg s).getD ""
      userCategory := (aiSugg s).getD ""
      isInitialized := true }
  else s

/-- The second `useEffect` of `CategoryInput`: sync the prop value into
`inputValue` unless the input is the active element; dependency array
`[value]`. -/
def effectSync (prev s : TState) : TState :=
  if prev.userCategory ≠ s.userCategory ∧ s.userCategory ≠ s.inputValue ∧
      ¬s.focused then
    { s with inputValue := s.userCategory }
  else s

/-- The third `useEffect` of `CategoryInput`: recompute `showInput`;
dependency array `[aiSuggestion, inputValue]`. -/
def effectShow (prev s : TState) : TState :=
  if (aiSugg prev, prev.inputValue) ≠ (aiSugg s, s.inputValue) then
    { s with showInput := showInputOf (aiSugg s) s.inputValue }
  else s

/-- The three `useEffect` bodies of `CategoryInput`, applied in declaration
order after an event handler has run.  Each effect is gated on a change of
its dependency array relative to the committed pre-event state `prev`
(running the cascade once in declaration order reaches the same quiescent
state React reaches, since the data flow follows that order). -/
def runEffectsFrom (prev s : TState) : TState :=
  effectShow prev (effectSync prev (effectInit prev s))

/-- One step of the Capture Session toolbar: the event handler followed by
the effects. -/
def stepT (s : TState) (e : TEvent) : TState :=
  runEffectsFrom s (handler s e)

/-- The state of the toolbar window when it mounts: all hook states at their
initial values. -/
def initT : TState :=
  { clipData := none
    userCategory := ""
    isSaving := false
    capturedUserCategory := ""
    inputValue := ""
    isInitialized := false
    showInput := false
    focused := false
    submitted := []
    closeRequests := 0 }

/-- States of the Capture Session reachable from the freshly mounted
toolbar. -/
inductive ReachableT : TState → Prop where
  | init : ReachableT initT
  | step {s : TState} (e : TEvent) : ReachableT s → ReachableT (stepT s e)

/-- Run the toolbar machine over a list of events. -/
def runToolbar (events : List TEvent) : TState :=
  events.foldl stepT initT

/-! ### Basic lemmas about the toolbar machine -/

theorem runEffectsFrom_submitted (p s : TState) :
    (runEffectsFrom p s).submitted = s.submitted := by
  simp only [runEffectsFrom, effectShow, effectSync, effectInit]
  repeat' split
  all_goals rfl

theorem runEffectsFrom_closeRequests (p s : TState) :
    (runEffectsFrom p s).closeRequests = s.closeRequests := by
  simp only [runEffectsFrom, effectShow, effectSync, effectInit]
  repeat' split
  all_goals rfl

theorem runEffectsFrom_clipData (p s : TState) :
    (runEffectsFrom p s).clipData = s.clipData := by
  simp only [runEffectsFrom, effectShow, effectSync, effectInit]
  repeat' split
  all_goals rfl

theorem runEffectsFrom_isSaving (p s : TState) :
    (runEffectsFrom p s).isSaving = s.isSaving := by
  simp only [runEffectsFrom, effectShow, effectSync, effectInit]
  repeat' split
  all_goals rfl

theorem runEffectsFrom_of_cancel (s : TState) :
    runEffectsFrom s (handleCancel s) = handleCancel s := by
  simp [runEffectsFrom, effectShow, effectSync, effectInit, handleCancel, aiSugg]

theorem runEffectsFrom_of_save (s : TState) :
    runEffectsFrom s (handleSave s) = handleSave s := by
  simp [runEffectsFrom, effectShow, effectSync, effectInit, handleSave, aiSugg]

/-! ### Reachability invariant for the Capture Session

The text input is only rendered while `showInput` is true, and the
`showInput` effect keeps that flag false whenever no truthy suggestion has
arrived and the input value is empty, so the Enter accelerator cannot fire
in those states. -/

/-- Invariant of every reachable toolbar state: the input is rendered only
when a truthy suggestion exists or something is in the input, and the
submitted `userCategory` value can be empty only while the visible input is
empty too. -/
def InvT (s : TState) : Prop :=
  (s.showInput = true → truthy (aiSugg s) = true ∨ s.inputValue ≠ "") ∧
  (s.userCategory = "" → s.inputValue = "")

theorem truthy_getD_ne {g : Option String} (h : truthy g = true) :
    g.getD "" ≠ "" := by
  cases g with
  | none => simp [truthy] at h
  | some v => simpa [truthy] using h

theorem showInputOf_eq_true {g : Option String} {iv : String}
    (h : showInputOf g iv = true) : truthy g = true ∨ iv ≠ "" := by
  unfold showInputOf at h
  split at h
  · cases h
  · next hc =>
    rcases not_and_or.mp hc with h1 | h2
    · exact Or.inl (not_not.mp h1)
    · exact Or.inr h2

theorem effectInit_showInput (prev s : TState) :
    (effectInit prev s).showInput = s.showInput := by
  unfold effectInit; split <;> rfl

theorem effectSync_showInput (prev s : TState) :
    (effectSync prev s).showInput = s.showInput := by
  unfold effectSync; split <;> rfl

theorem effectInit_k2 (prev : TState) {s : TState}
    (h : s.userCategory = "" → s.inputValue = "") :
    (effectInit prev s).userCategory = "" → (effectInit prev s).inputValue = "" := by
  unfold effectInit
  split
  · next hc =>
    intro habs
    exact absurd habs (truthy_getD_ne hc.2.1)
  · exact h

theorem effectSync_k2 (prev : TState) {s : TState}
    (h : s.userCategory = "" → s.inputValue = "") :
    (effectSync prev s).userCategory = "" → (effectSync prev s).inputValue = "" := by
  unfold effectSync
  split
  · intro habs; exact habs
  · exact h

theorem effectShow_k2 (prev : TState) {s : TState}
    (h : s.userCategory = "" → s.inputValue = "") :
    (effectShow prev s).userCategory = "" → (effectShow prev s).inputValue = "" := by
  unfold effectShow
  split <;> exact h

theorem runEffectsFrom_k2 (prev : TState) {s : TState}
    (h : s.userCategory = "" → s.inputValue = "") :
    (runEffectsFrom prev s).userCategory = "" →
      (runEffectsFrom prev s).inputValue = "" := by
  exact effectShow_k2 prev (effectSync_k2 prev (effectInit_k2 prev h))

theorem runEffectsFrom_k1 (prev : TState) {s : TState}
    (h : s.showInput = true → truthy (aiSugg prev) = true ∨ prev.inputValue ≠ "") :
    (runEffectsFrom prev s).showInput = true →
      truthy (aiSugg (runEffectsFrom prev s)) = true ∨
        (runEffectsFrom prev s).inputValue ≠ "" := by
  unfold runEffectsFrom effectShow
  split
  · intro hs
    have := showInputOf_eq_true (by simpa using hs)
    simpa [aiSugg] using this
  · next hc =>
    have hpair := not_not.mp hc
    intro hs
    have hshow : (effectSync prev (effectInit prev s)).showInput = s.showInput := by
      rw [effectSync_showInput, effectInit_showInput]
    rw [hshow] at hs
    rcases h hs with ht | hne
    · left
      have : aiSugg prev = aiSugg (effectSync prev (effectInit prev s)) :=
        congrArg Prod.fst hpair
      rw [← this]; exact ht
    · right
      have : prev.inputValue = (effectSync prev (effectInit prev s)).inputValue :=
        congrArg Prod.snd hpair
      rw [← this]; exact hne

theorem handler_k1_transfer (s : TState) (e : TEvent)
    (h1 : s.showInput = true → truthy (aiSugg s) = true ∨ s.inputValue ≠ "") :
    (handler s e).showInput = true →
      truthy (aiSugg s) = true ∨ s.inputValue ≠ "" := by
  cases e <;> simp only [handler, handleSave, handleCancel] <;>
    repeat' split
  all_goals first
    | (next hc => exact fun _ => Or.inl hc.2)
    | exact h1
    | (intro hfalse; cases hfalse)

theorem handler_k2 (s : TState) (e : TEvent)
    (h2 : s.userCategory = "" → s.inputValue = "") :
    (handler s e).userCategory = "" → (handler s e).inputValue = "" := by
  cases e <;> simp only [handler, handleSave, handleCancel] <;>
    repeat' split
  all_goals first
    | exact h2
    | (intro h; exact h)
    | (next hc => intro habs; exact absurd habs (truthy_getD_ne hc.1))

theorem invT_init : InvT initT := by
  constructor
  · intro h; cases h
  · intro _; rfl

theorem invT_step (s : TState) (e : TEvent) (h : InvT s) : InvT (stepT s e) := by
  obtain ⟨h1, h2⟩ := h
  refine ⟨?_, ?_⟩
  · exact runEffectsFrom_k1 s (handler_k1_transfer s e h1)
  · exact runEffectsFrom_k2 s (handler_k2 s e h2)

theorem invT_reachable {s : TState} (h : ReachableT s) : InvT s := by
  induction h with
  | init => exact invT_init
  | step e _ ih => exact invT_step _ e ih

theorem step_submitted_of_closed (s : TState) (e : TEvent)
    (hshow : s.showInput = false) (hsugg : truthy (aiSugg s) = false) :
    (stepT s e).submitted = s.submitted := by
  rw [stepT, runEffectsFrom_submitted]
  cases e <;> simp only [handler, handleSave, handleCancel] <;> repeat' split
  all_goals first | rfl | simp_all

/-- C2: saving is impossible in the Capture Session until an AI suggestion
exists or the user has typed a non-empty category: in every reachable state
where the suggestion is absent (not truthy) and the user's category value is
empty, no event — Enter accelerator, save button click, or anything else —
can invoke `submit_clip`. -/
theorem c2_no_save_before_suggestion_or_typing :
    ∀ s : TState, ReachableT s → truthy (aiSugg s) = false → s.userCategory = "" →
      ∀ e : TEvent, (stepT s e).submitted = s.submitted := by
  intro s hr hsugg huc e
  obtain ⟨h1, h2⟩ := invT_reachable hr
  have hiv : s.inputValue = "" := h2 huc
  have hshow : s.showInput = false := by
    cases hsi : s.showInput with
    | false => rfl
    | true =>
      rcases h1 hsi with ht | hne
      · rw [hsugg] at ht; cases ht
      · exact absurd hiv hne
  exact step_submitted_of_closed s e hshow hsugg

/-- Closed witness for C2: in the freshly mounted toolbar (no suggestion,
nothing typed) the Enter accelerator submits nothing. -/
theorem c2_no_save_before_suggestion_or_typing_witness :
    (stepT initT (TEvent.keyEnter false)).submitted = [] := by
  have h := c2_no_save_before_suggestion_or_typing initT ReachableT.init rfl rfl
    (TEvent.keyEnter false)
  exact h.trans rfl

/-- C1: for every save of the Capture Session toolbar — a click on the
enabled save button or the Enter accelerator in the category input — the
category submitted to `submit_clip` is the user's typed value trimmed when
that trim is non-empty, else the AI-suggested category when a truthy one has
arrived, else the literal "Other"; and in the spec's scenario (suggestion
"url" arrives, the user saves without editing) the submitted category is
"url". -/
theorem c1_save_submits_trim_else_suggestion_else_other :
    (∀ s : TState, s.isSaving = false → truthy (aiSugg s) = true →
      (stepT s TEvent.clickSave).submitted = s.submitted ++
        [{ userCategory :=
             if jsTrim s.userCategory ≠ "" then jsTrim s.userCategory
             else if truthy (aiSugg s) then (aiSugg s).getD "" else "Other"
           clip := s.clipData.map (·.clip) }]) ∧
    (∀ s : TState, s.showInput = true → s.focused = true →
      (stepT s (TEvent.keyEnter false)).submitted = s.submitted ++
        [{ userCategory :=
             if jsTrim s.userCategory ≠ "" then jsTrim s.userCategory
             else if truthy (aiSugg s) then (aiSugg s).getD "" else "Other"
           clip := s.clipData.map (·.clip) }]) ∧
    (runToolbar [TEvent.clipData ⟨some "url", Clip.text "https://example.com"⟩,
        TEvent.clickSave]).submitted =
      [{ userCategory := "url", clip := some (Clip.text "https://example.com") }] := by
  refine ⟨?_, ?_, ?_⟩
  · intro s h1 h2
    simp only [stepT, handler]
    rw [if_neg (by simp [h1, h2])]
    rw [runEffectsFrom_of_save]
    simp [handleSave, submitCategory, aiSugg]
  · intro s h1 h2
    simp only [stepT, handler]
    rw [if_pos (by simp [h1, h2])]
    rw [runEffectsFrom_of_save]
    simp [handleSave, submitCategory, aiSugg]
  · decide

/-- Closed witness for C1: in the freshly mounted toolbar, after a
`clip-data` event with suggestion "url", clicking save submits category
"url". -/
theorem c1_save_submits_trim_else_suggestion_else_other_witness :
    (stepT (stepT initT (TEvent.clipData ⟨some "url", Clip.text "hi"⟩))
        TEvent.clickSave).submitted =
      [{ userCategory := "url", clip := some (Clip.text "hi") }] ∧
    (stepT { initT with
        showInput := true, focused := true, userCategory := " notes ",
        inputValue := " notes " } (TEvent.keyEnter false)).submitted =
      [{ userCategory := "notes", clip := none }] := by
  constructor
  · have h := c1_save_submits_trim_else_suggestion_else_other.1
      (stepT initT (TEvent.clipData ⟨some "url", Clip.text "hi"⟩))
      (by decide) (by decide)
    exact h.trans (by decide)
  · have h := c1_save_submits_trim_else_suggestion_else_other.2.1
      { initT with
        showInput := true, focused := true, userCategory := " notes ",
        inputValue := " notes " } (by decide) (by decide)
    exact h.trans (by decide)

/-- C5: cancelling the Capture Session persists nothing.  Both the cancel
button and the Escape key leave the list of `submit_clip` invocations
unchanged in every state, and when the cancel button is enabled its whole
effect is one `close_toolbar_window` request. -/
theorem c5_cancel_never_submits :
    (∀ s : TState, (stepT s TEvent.clickCancel).submitted = s.submitted) ∧
    (∀ s : TState, (stepT s TEvent.keyEscape).submitted = s.submitted) ∧
    (∀ s : TState, s.isSaving = false →
      stepT s TEvent.clickCancel = { s with closeRequests := s.closeRequests + 1 }) := by
  refine ⟨?_, ?_, ?_⟩
  · intro s
    rw [stepT, runEffectsFrom_submitted]
    simp only [handler]
    split
    · rfl
    · rfl
  · intro s
    rw [stepT, runEffectsFrom_submitted]
    simp only [handler]
    repeat' split
    all_goals rfl
  · intro s h
    simp only [stepT, handler]
    rw [if_neg (by simp [h])]
    exact runEffectsFrom_of_cancel s

/-- Closed witness for C5: cancelling the freshly mounted toolbar (before
any suggestion) requests one window close and submits nothing. -/
theorem c5_cancel_never_submits_witness :
    stepT initT TEvent.clickCancel = { initT with closeRequests := 1 } := by
  have h := c5_cancel_never_submits.2.2 initT rfl
  exact h.trans (by decide)

/-- C3 fails on the code: the Enter accelerator reaches `handleSave` with no
`isSaving` guard (the guard exists only on the save button's `disabled`
attribute), so a second Enter press while the first `submit_clip` call is
still in flight invokes `submit_clip` a second time.  Concretely: suggestion
"url" arrives, the user opens the input via the badge, types "notes" and
presses Enter twice before the first save settles — two `submit_clip`
invocations are recorded while `isSaving` is still true. -/
theorem c3_enter_double_submit_while_saving :
    (runToolbar [TEvent.clipData ⟨some "url", Clip.text "x"⟩, TEvent.clickBadge,
        TEvent.typeInput "notes", TEvent.keyEnter false]).isSaving = true ∧
    (runToolbar [TEvent.clipData ⟨some "url", Clip.text "x"⟩, TEvent.clickBadge,
        TEvent.typeInput "notes", TEvent.keyEnter false]).submitted =
      [{ userCategory := "notes", clip := some (Clip.text "x") }] ∧
    (runToolbar [TEvent.clipData ⟨some "url", Clip.text "x"⟩, TEvent.clickBadge,
        TEvent.typeInput "notes", TEvent.keyEnter false, TEvent.keyEnter false]).submitted =
      [{ userCategory := "notes", clip := some (Clip.text "x") },
       { userCategory := "notes", clip := some (Clip.text "x") }] := by
  decide

/-- C4 fails on the code: the `clip-data` listener's "has the user typed"
guard (`!userCategory`) is evaluated against the `userCategory` value
captured when the listener was registered (`useEffect` with empty dependency
array), which is always the empty initial value.  Concretely: after the
user has typed "mynotes", a `clip-data` event carrying suggestion "links"
overwrites the pending category, and the next save submits "links", not the
typed "mynotes" (while the focused input still displays "mynotes"). -/
theorem c4_suggestion_overwrites_typed_category :
    (runToolbar [TEvent.clipData ⟨some "url", Clip.text "x"⟩, TEvent.clickBadge,
        TEvent.typeInput "mynotes"]).userCategory = "mynotes" ∧
    (runToolbar [TEvent.clipData ⟨some "url", Clip.text "x"⟩, TEvent.clickBadge,
        TEvent.typeInput "mynotes",
        TEvent.clipData ⟨some "links", Clip.text "x"⟩]).userCategory = "links" ∧
    (runToolbar [TEvent.clipData ⟨some "url", Clip.text "x"⟩, TEvent.clickBadge,
        TEvent.typeInput "mynotes",
        TEvent.clipData ⟨some "links", Clip.text "x"⟩]).inputValue = "mynotes" ∧
    (runToolbar [TEvent.clipData ⟨some "url", Clip.text "x"⟩, TEvent.clickBadge,
        TEvent.typeInput "mynotes", TEvent.clipData ⟨some "links", Clip.text "x"⟩,
        TEvent.keyEnter false]).submitted =
      [{ userCategory := "links", clip := some (Clip.text "x") }] := by
  decide

/-! ## App.tsx : the main window (items list, clip-saved / clip-deleted
listeners) -/

/-- `ClipItem.clip.Text` in `App.tsx`. -/
structure TextContent where
  plain : String
deriving DecidableEq, Repr

/-- `ClipItem.clip.Image` in `App.tsx` (base64 payload). -/
structure ImageContent where
  data : String
  width : Nat
  height : Nat
deriving DecidableEq, Repr

/-- The `clip` field of `ClipItem`: both variants optional, as in the
TypeScript interface. -/
structure ClipContent where
  Text : Option TextContent
  Image : Option ImageContent
deriving DecidableEq, Repr

/-- The `ClipItem` interface exported by `App.tsx`. -/
structure ClipItem where
  id : String
  clip : ClipContent
  created_at : String
  category : Option String
  summary : Option String
  tags : Option (List String)
deriving DecidableEq, Repr

/-- State of the `App` component that the refresh claims concern. -/
structure AppState where
  items : List ClipItem
  isLoadingItems : Option Bool
  toasts : List String
deriving DecidableEq, Repr

/-- Backend commands the `App` component can issue. -/
inductive AppCmd where
  /-- An `invoke("get_items")` call. -/
  | invokeGetItems
deriving DecidableEq, Repr

/-- Events the `App` component receives: the two Tauri notification events
and the settling of a `get_items` call. -/
inductive AppEvent where
  | clipSaved (payload : String)
  | clipDeleted (payload : String)
  | getItemsSettled (result : Except String (List ClipItem))
deriving Repr

/-- The synchronous part of `App.getItems`: set the loading flag and issue
the `get_items` invocation. -/
def getItems (s : AppState) : AppState × List AppCmd :=
  ({ s with isLoadingItems := some true }, [AppCmd.invokeGetItems])

/-- The `App` event handlers: both the `clip-saved` and the `clip-deleted`
listeners call `getItems()` and nothing else (their callbacks take no
payload argument); when the `get_items` promise resolves, `setItems`
replaces the whole list with the fetched result, and on rejection an error
toast is shown and the items are left unchanged. -/
def appStep (s : AppState) : AppEvent → AppState × List AppCmd
  | .clipSaved _ => getItems s
  | .clipDeleted _ => getItems s
  | .getItemsSettled (.ok fetched) =>
    ({ s with items := fetched, isLoadingItems := some false }, [])
  | .getItemsSettled (.error _) =>
    ({ s with
        toasts := s.toasts ++ ["Unable to fetch items"]
        isLoadingItems := some false }, [])

/-! ## GridVirtualizer.tsx : the displayedItems filter -/

/-- The searchable fields collected for one item: text content, summary,
category, and the spread tags (each defaulted like the `|| ""` / `|| []`
fallbacks in the source). -/
def searchableFields (item : ClipItem) : List String :=
  [(item.clip.Text.map (·.plain)).getD "", item.summary.getD "",
   item.category.getD ""] ++ item.tags.getD []

/-- The search predicate of the `displayedItems` memo, applied to one item;
`query` is the already lowercased and trimmed search query. -/
def matchesSearch (query : String) (item : ClipItem) : Bool :=
  let fields := searchableFields item
  let searchableText :=
    jsTrim (collapseWhitespace (replaceDashUnderscore (lowerStr (jsJoin " " fields))))
  let normalizedQuery := jsTrim (collapseWhitespace (replaceDashUnderscore query))
  let originalText := lowerStr (jsJoin " " fields)
  jsIncludes originalText query || jsIncludes searchableText normalizedQuery ||
    jsIncludes searchableText query

/-- The `displayedItems` memo of `GridVirtualizer`: the search filter is
applied only when the trimmed query is non-empty, then the category filter
only when at least one category is selected. -/
def displayedItems (items : List ClipItem) (searchQuery : String)
    (selectedCategories : List String) : List ClipItem :=
  let filtered :=
    if jsTrim searchQuery ≠ "" then
      items.filter (matchesSearch (jsTrim (lowerStr searchQuery)))
    else items
  if 0 < selectedCategories.length then
    filtered.filter fun item =>
      truthy item.category && selectedCategories.contains (item.category.getD "")
  else filtered

/-! ## lib/utils.ts : formatDateTime

JavaScript `Date` parsing and the date-fns `format` function live outside
the repository, so they enter the embedding as parameters: `jsDateParse`
maps a string to the epoch-milliseconds time value of `new Date(string)`
(`none` for an invalid date), and `dateFnsFormat` renders a time value
according to a format pattern. -/

/-- The regular expression test
`/^\d\x7b4\x7d-\d\x7b2\x7d-\d\x7b2\x7d \d\x7b2\x7d:\d\x7b2\x7d:\d\x7b2\x7d$/`
of `formatDateTime`: the "YYYY-MM-DD HH:MM:SS" shape. -/
def sqlTimestampShape (s : String) : Bool :=
  match s.data with
  | [y1, y2, y3, y4, d1, m1, m2, d2, a1, a2, sp, h1, h2, c1, n1, n2, c2, e1, e2] =>
    y1.isDigit && y2.isDigit && y3.isDigit && y4.isDigit && d1 == '-' &&
    m1.isDigit && m2.isDigit && d2 == '-' && a1.isDigit && a2.isDigit &&
    sp == ' ' && h1.isDigit && h2.isDigit && c1 == ':' && n1.isDigit &&
    n2.isDigit && c2 == ':' && e1.isDigit && e2.isDigit
  | _ => false

/-- The `dateStr` argument of `formatDateTime`: a string, a `Date` instance
(whose time value is `none` when the instance is invalid), or a number. -/
inductive DateArg where
  | str (s : String)
  | date (timeValue : Option Int)
  | num (n : Int)

/-- JavaScript falsiness of the optional `dateStr` argument (`!dateStr`):
`undefined`, the empty string, and the number 0 are falsy; a `Date` object
is always truthy. -/
def jsFalsy : Option DateArg → Bool
  | none => true
  | some (.str s) => decide (s = "")
  | some (.num n) => decide (n = 0)
  | some (.date _) => false

/-- `new Date(number)`: valid exactly when the magnitude stays within the
ECMAScript maximum time value of 8,640,000,000,000,000 ms. -/
def numTimeValue (n : Int) : Option Int :=
  if n.natAbs ≤ 8640000000000000 then some n else none

/-- The `date` local of `formatDateTime`: the branch on the argument's type,
with the "Z" suffix appended before parsing exactly when the string matches
the SQL-timestamp shape. -/
def parsedTime (jsDateParse : String → Option Int) : Option DateArg → Option Int
  | some (.date d) => d
  | some (.num n) => numTimeValue n
  | some (.str s) =>
    if sqlTimestampShape s then jsDateParse (s ++ "Z") else jsDateParse s
  | none => none

/-- The date-fns pattern built by `formatDateTime` from `is24Hour`. -/
def fmtPattern (is24Hour : Bool) : String :=
  "MM/dd/yyyy " ++ (if is24Hour then "HH" else "hh") ++ ":mm:ss" ++
    (if is24Hour then "" else " a")

/-- `formatDateTime` from `lib/utils.ts`. -/
def formatDateTime (jsDateParse : String → Option Int)
    (dateFnsFormat : Int → String → String) (dateStr : Option DateArg)
    (is24Hour : Bool) : Option String :=
  if jsFalsy dateStr then none
  else
    match parsedTime jsDateParse dateStr with
    | none => none
    | some t => some (dateFnsFormat t (fmtPattern is24Hour))

/-! ## SettingsDialog.tsx : formatHotkey and testHotkey -/

/-- The allowed named keys of `formatHotkey` (beyond single characters). -/
def namedKeys : List String :=
  ["F1", "F2", "F3", "F4", "F5", "F6", "F7", "F8", "F9", "F10", "F11", "F12",
   "Space", "Enter", "Escape", "Tab", "Backspace", "Delete", "Insert", "Home",
   "End", "PageUp", "PageDown", "ArrowUp", "ArrowDown", "ArrowLeft",
   "ArrowRight"]

/-- Keys whose lowercase form is `control` or `ctrl`. -/
def isCtrlKey (k : String) : Bool :=
  lowerStr k == "control" || lowerStr k == "ctrl"

/-- Keys whose lowercase form is `meta`, `cmd` or `command`. -/
def isMetaKey (k : String) : Bool :=
  lowerStr k == "meta" || lowerStr k == "cmd" || lowerStr k == "command"

/-- Keys whose lowercase form is `shift`. -/
def isShiftKey (k : String) : Bool := lowerStr k == "shift"

/-- Keys whose lowercase form is `alt` or `option`. -/
def isAltKey (k : String) : Bool :=
  lowerStr k == "alt" || lowerStr k == "option"

/-- Any of the modifier alternatives above. -/
def isModifierKey (k : String) : Bool :=
  isCtrlKey k || isMetaKey k || isShiftKey k || isAltKey k

/-- A non-modifier key that `formatHotkey` keeps: a single character or one
of the allowed named keys. -/
def isRegularKeyKept (k : String) : Bool :=
  k.length == 1 || namedKeys.contains k

/-- One iteration of the `recordedKeys.forEach` body of `formatHotkey`,
threading the `modifiers` and `regularKeys` accumulator arrays. -/
def hotkeyStep (acc : List String × List String) (key : String) :
    List String × List String :=
  if isCtrlKey key then
    (if acc.1.contains "CommandOrControl" then acc.1
     else acc.1 ++ ["CommandOrControl"], acc.2)
  else if isMetaKey key then
    (if acc.1.contains "CommandOrControl" then acc.1
     else acc.1 ++ ["CommandOrControl"], acc.2)
  else if isShiftKey key then
    (if acc.1.contains "Shift" then acc.1 else acc.1 ++ ["Shift"], acc.2)
  else if isAltKey key then
    (if acc.1.contains "Alt" then acc.1 else acc.1 ++ ["Alt"], acc.2)
  else if isRegularKeyKept key then (acc.1, acc.2 ++ [upperStr key])
  else acc

/-- The `modifiers` and `regularKeys` arrays built by `formatHotkey` from
the recorded key set (a JS `Set` iterates in insertion order, embedded as a
list). -/
def formatHotkeyLists (recordedKeys : List String) : List String × List String :=
  recordedKeys.foldl hotkeyStep ([], [])

/-- `formatHotkey` from `SettingsDialog.tsx`:
`[...modifiers, ...regularKeys].join("+")`. -/
def formatHotkey (recordedKeys : List String) : String :=
  jsJoin "+" ((formatHotkeyLists recordedKeys).1 ++ (formatHotkeyLists recordedKeys).2)

/-- The `TestResult` values of `SettingsDialog.tsx` (other than `null`). -/
inductive TestResult where
  | success
  | error
deriving DecidableEq, Repr

/-- Outcome of the `invoke("test_global_hotkey")` promise: resolution or
rejection with an error message. -/
inductive HotkeyTestOutcome where
  | ok
  | fail (message : String)
deriving DecidableEq, Repr

/-- The `SettingsDialog` state that `testHotkey` touches. -/
structure SettingsTestState where
  testResult : Option TestResult
  isTesting : Bool
  toasts : List String
deriving DecidableEq, Repr

/-- `testHotkey` from `SettingsDialog.tsx`, as a function of the current
`globalShortcut`, the prior state, and the backend call's outcome.  The
returned boolean records whether `test_global_hotkey` was invoked at all.
`setIsTesting(true)` followed by the `finally` reset nets to `false`; the
delayed `setTimeout` clearing of `testResult` is outside one synchronous
run and is not part of this function. -/
def testHotkey (globalShortcut : String) (s : SettingsTestState)
    (outcome : HotkeyTestOutcome) : SettingsTestState × Bool :=
  if jsTrim globalShortcut = "" then
    ({ s with toasts := s.toasts ++ ["Please enter a hotkey combination first"] },
     false)
  else
    match outcome with
    | .ok => ({ s with isTesting := false, testResult := some .success }, true)
    | .fail msg =>
      ({ s with
          isTesting := false
          testResult := some .error
          toasts := s.toasts ++ ["Invalid hotkey: " ++ msg] }, true)

/-! ## Theorems about App, GridVirtualizer, utils and SettingsDialog -/

/-- C6: for every `clip-saved` and every `clip-deleted` event, the `App`
component refreshes by issuing exactly one `get_items` invocation and leaves
its items untouched until that fetch resolves; the handlers ignore the event
payload entirely (no delta is applied), and a resolved fetch replaces the
displayed items wholesale with the fetched list. -/
theorem c6_ui_refreshes_by_full_refetch :
    (∀ (s : AppState) (p : String),
      appStep s (.clipSaved p) =
        ({ s with isLoadingItems := some true }, [AppCmd.invokeGetItems]) ∧
      appStep s (.clipDeleted p) =
        ({ s with isLoadingItems := some true }, [AppCmd.invokeGetItems])) ∧
    (∀ (s : AppState) (p q : String),
      appStep s (.clipSaved p) = appStep s (.clipSaved q) ∧
      appStep s (.clipDeleted p) = appStep s (.clipDeleted q)) ∧
    (∀ (s : AppState) (fetched : List ClipItem),
      (appStep s (.getItemsSettled (.ok fetched))).1.items = fetched) :=
  ⟨fun _ _ => ⟨rfl, rfl⟩, fun _ _ _ => ⟨rfl, rfl⟩, fun _ _ => rfl⟩

/-- C8: the displayed item list is always a subsequence of the input list —
order preserved, nothing added or duplicated — and when the trimmed search
query is empty and no category is selected it equals the input list. -/
theorem c8_displayed_items_sublist :
    (∀ (items : List ClipItem) (q : String) (cats : List String),
      (displayedItems items q cats).Sublist items) ∧
    (∀ (items : List ClipItem) (q : String) (cats : List String),
      jsTrim q = "" → cats = [] → displayedItems items q cats = items) := by
  constructor
  · intro items q cats
    simp only [displayedItems]
    split
    · split
      · exact (List.filter_sublist _).trans (List.filter_sublist _)
      · exact List.filter_sublist _
    · split
      · exact List.filter_sublist _
      · exact List.Sublist.refl _
  · intro items q cats h1 h2
    simp [displayedItems, h1, h2]

/-- Closed witness for C8: a whitespace-only query with no selected
categories displays the input list unchanged. -/
theorem c8_displayed_items_sublist_witness :
    displayedItems
        [{ id := "1", clip := { Text := some { plain := "hello" }, Image := none },
           created_at := "2024-01-01 00:00:00", category := some "notes",
           summary := none, tags := some ["greeting"] }] " " [] =
      [{ id := "1", clip := { Text := some { plain := "hello" }, Image := none },
         created_at := "2024-01-01 00:00:00", category := some "notes",
         summary := none, tags := some ["greeting"] }] :=
  c8_displayed_items_sublist.2 _ " " [] (by decide) rfl

/-- C9: `formatDateTime` returns `undefined` exactly when its argument is
absent/falsy or does not yield a valid date, and for every string of the
"YYYY-MM-DD HH:MM:SS" shape it parses the string with "Z" appended — i.e.
interprets the timestamp as UTC — before formatting. -/
theorem c9_format_date_time_undefined_iff_and_utc :
    (∀ (parse : String → Option Int) (fmt : Int → String → String)
        (arg : Option DateArg) (is24 : Bool),
      formatDateTime parse fmt arg is24 = none ↔
        (jsFalsy arg = true ∨ parsedTime parse arg = none)) ∧
    (∀ (parse : String → Option Int) (fmt : Int → String → String)
        (s : String) (is24 : Bool), sqlTimestampShape s = true →
      formatDateTime parse fmt (some (.str s)) is24 =
        (parse (s ++ "Z")).map fun t => fmt t (fmtPattern is24)) := by
  constructor
  · intro parse fmt arg is24
    unfold formatDateTime
    split
    · next hf => simp [hf]
    · next hf =>
      have hf2 : jsFalsy arg = false := by
        cases hjs : jsFalsy arg
        · rfl
        · exact absurd hjs hf
      cases hp : parsedTime parse arg <;> simp [hp, hf2]
  · intro parse fmt s is24 h
    have hne : ¬s = "" := by
      intro he
      rw [he] at h
      exact absurd h (by decide)
    have hp2 : parsedTime parse (some (.str s)) = parse (s ++ "Z") := by
      simp [parsedTime, h]
    unfold formatDateTime
    rw [if_neg (by simp [jsFalsy, hne]), hp2]
    cases hp : parse (s ++ "Z") <;> simp [hp]

/-- Closed witness for C9: a concrete SQL-shaped timestamp is parsed through
the "Z"-suffixed string. -/
theorem c9_format_date_time_undefined_iff_and_utc_witness :
    formatDateTime
        (fun str => if str = "2024-01-02 03:04:05Z" then some 123 else none)
        (fun _ _ => "F") (some (.str "2024-01-02 03:04:05")) true = some "F" := by
  have h := c9_format_date_time_undefined_iff_and_utc.2
    (fun str => if str = "2024-01-02 03:04:05Z" then some 123 else none)
    (fun _ _ => "F") "2024-01-02 03:04:05" true (by decide)
  exact h.trans (by decide)

/-- C7: the hotkey test settles synchronously: a blank (whitespace-only)
binding is rejected with an error toast without invoking the backend
command at all, and for a non-blank binding the command is invoked and
`testResult` becomes `success` on resolution or `error` (with an
"Invalid hotkey" toast) on rejection — the rejection is caught, never
propagated. -/
theorem c7_test_hotkey_sync_result :
    (∀ (sc : String) (st : SettingsTestState) (o : HotkeyTestOutcome),
      jsTrim sc = "" →
        testHotkey sc st o =
          ({ st with
              toasts := st.toasts ++ ["Please enter a hotkey combination first"] },
           false)) ∧
    (∀ (sc : String) (st : SettingsTestState),
      jsTrim sc ≠ "" →
        testHotkey sc st .ok =
          ({ st with isTesting := false, testResult := some .success }, true)) ∧
    (∀ (sc : String) (st : SettingsTestState) (msg : String),
      jsTrim sc ≠ "" →
        testHotkey sc st (.fail msg) =
          ({ st with
              isTesting := false
              testResult := some .error
              toasts := st.toasts ++ ["Invalid hotkey: " ++ msg] }, true)) := by
  refine ⟨?_, ?_, ?_⟩
  · intro sc st o h
    unfold testHotkey
    rw [if_pos h]
  · intro sc st h
    unfold testHotkey
    rw [if_neg h]
  · intro sc st msg h
    unfold testHotkey
    rw [if_neg h]

/-- Closed witness for C7: a blank binding is rejected without invocation;
a non-blank binding whose test rejects yields `error` plus a toast. -/
theorem c7_test_hotkey_sync_result_witness :
    testHotkey " " ⟨none, false, []⟩ .ok =
      (⟨none, false, ["Please enter a hotkey combination first"]⟩, false) ∧
    testHotkey "Ctrl+A" ⟨none, false, []⟩ .ok =
      (⟨some .success, false, []⟩, true) ∧
    testHotkey "Ctrl+A" ⟨none, false, []⟩ (.fail "bad") =
      (⟨some .error, false, ["Invalid hotkey: bad"]⟩, true) := by
  refine ⟨?_, ?_, ?_⟩
  · have h := c7_test_hotkey_sync_result.1 " " ⟨none, false, []⟩ .ok (by decide)
    exact h.trans (by decide)
  · have h := c7_test_hotkey_sync_result.2.1 "Ctrl+A" ⟨none, false, []⟩ (by decide)
    exact h.trans (by decide)
  · have h := c7_test_hotkey_sync_result.2.2 "Ctrl+A" ⟨none, false, []⟩ "bad" (by decide)
    exact h.trans (by decide)

/-! ### formatHotkey lemmas (C10) -/

theorem hotkeyStep_snd (acc : List String × List String) (k : String) :
    (hotkeyStep acc k).2 =
      acc.2 ++ if !isModifierKey k && isRegularKeyKept k then [upperStr k] else [] := by
  unfold hotkeyStep isModifierKey
  repeat' split <;> simp_all

theorem hotkeyFold_snd (keys : List String) (acc : List String × List String) :
    (keys.foldl hotkeyStep acc).2 =
      acc.2 ++ (keys.filter fun k => !isModifierKey k && isRegularKeyKept k).map upperStr := by
  induction keys generalizing acc with
  | nil => simp
  | cons k keys ih =>
    rw [List.foldl_cons, ih, List.filter_cons]
    by_cases h : (!isModifierKey k && isRegularKeyKept k) = true
    · simp [h, hotkeyStep_snd]
    · simp [h, hotkeyStep_snd]

theorem hotkeyStep_fst_mono (acc : List String × List String) (k : String) :
    ∀ m ∈ acc.1, m ∈ (hotkeyStep acc k).1 := by
  intro m hm
  unfold hotkeyStep
  repeat' split
  all_goals first | exact hm | simp [hm]

theorem hotkeyStep_fst_nodup (acc : List String × List String) (k : String)
    (h : acc.1.Nodup) : (hotkeyStep acc k).1.Nodup := by
  unfold hotkeyStep
  repeat' split
  all_goals first
    | exact h
    | (next hc =>
        have hx : _ ∉ acc.1 := fun hmem => hc (by simpa using hmem)
        simp [List.nodup_append, h, hx])

theorem hotkeyStep_fst_subset (acc : List String × List String) (k : String)
    (h : ∀ m ∈ acc.1, m ∈ (["CommandOrControl", "Shift", "Alt"] : List String)) :
    ∀ m ∈ (hotkeyStep acc k).1,
      m ∈ (["CommandOrControl", "Shift", "Alt"] : List String) := by
  intro m hm
  unfold hotkeyStep at hm
  repeat' split at hm
  all_goals first
    | exact h m hm
    | (rcases List.mem_append.mp hm with h1 | h1
       · exact h m h1
       · simp_all)

theorem hotkeyStep_coc (acc : List String × List String) (k : String)
    (h : (isCtrlKey k || isMetaKey k) = true) :
    "CommandOrControl" ∈ (hotkeyStep acc k).1 := by
  unfold hotkeyStep
  repeat' split <;> simp_all

theorem hotkeyFold_fst (keys : List String) (acc : List String × List String)
    (hnd : acc.1.Nodup)
    (hsub : ∀ m ∈ acc.1, m ∈ (["CommandOrControl", "Shift", "Alt"] : List String)) :
    (keys.foldl hotkeyStep acc).1.Nodup ∧
    (∀ m ∈ (keys.foldl hotkeyStep acc).1,
      m ∈ (["CommandOrControl", "Shift", "Alt"] : List String)) ∧
    (∀ m ∈ acc.1, m ∈ (keys.foldl hotkeyStep acc).1) := by
  induction keys generalizing acc with
  | nil => exact ⟨hnd, hsub, fun _ hm => hm⟩
  | cons k keys ih =>
    rw [List.foldl_cons]
    obtain ⟨h1, h2, h3⟩ := ih (hotkeyStep acc k)
      (hotkeyStep_fst_nodup acc k hnd) (hotkeyStep_fst_subset acc k hsub)
    exact ⟨h1, h2, fun m hm => h3 m (hotkeyStep_fst_mono acc k m hm)⟩

theorem hotkeyFold_fst_mono (keys : List String) :
    ∀ acc : List String × List String, ∀ m ∈ acc.1,
      m ∈ (keys.foldl hotkeyStep acc).1 := by
  induction keys with
  | nil => intro acc m hm; exact hm
  | cons k keys ih =>
    intro acc m hm
    rw [List.foldl_cons]
    exact ih (hotkeyStep acc k) m (hotkeyStep_fst_mono acc k m hm)

theorem hotkeyFold_coc (keys : List String) :
    ∀ acc : List String × List String, ∀ k ∈ keys,
      (isCtrlKey k || isMetaKey k) = true →
        "CommandOrControl" ∈ (keys.foldl hotkeyStep acc).1 := by
  induction keys with
  | nil => intro acc k hk; cases hk
  | cons k0 keys ih =>
    intro acc k hk h
    rw [List.foldl_cons]
    rcases List.mem_cons.mp hk with heq | htail
    · subst heq
      exact hotkeyFold_fst_mono keys (hotkeyStep acc k) _ (hotkeyStep_coc acc k h)
    · exact ih (hotkeyStep acc k0) k htail h

/-- C10: `formatHotkey` joins the modifier tokens before the regular keys
with "+", emits each modifier token at most once (both Control and Meta
collapse into one "CommandOrControl"), uppercases the regular keys it keeps
— exactly the non-modifier keys that are a single character or in the
allowed named-key list — and silently drops everything else. -/
theorem c10_format_hotkey_spec :
    ∀ keys : List String,
      formatHotkey keys =
        jsJoin "+" ((formatHotkeyLists keys).1 ++ (formatHotkeyLists keys).2) ∧
      (formatHotkeyLists keys).1.Nodup ∧
      (∀ m ∈ (formatHotkeyLists keys).1,
        m ∈ (["CommandOrControl", "Shift", "Alt"] : List String)) ∧
      (formatHotkeyLists keys).2 =
        (keys.filter fun k => !isModifierKey k && isRegularKeyKept k).map upperStr ∧
      (∀ k ∈ keys, (isCtrlKey k || isMetaKey k) = true →
        "CommandOrControl" ∈ (formatHotkeyLists keys).1) := by
  intro keys
  obtain ⟨h1, h2, -⟩ := hotkeyFold_fst keys ([], []) (by simp) (by simp)
  refine ⟨rfl, h1, h2, ?_, ?_⟩
  · simpa using hotkeyFold_snd keys ([], [])
  · intro k hk h
    exact hotkeyFold_coc keys ([], []) k hk h

/-- Closed witness for C10: recording both Control and Meta with the key
"k" yields a single "CommandOrControl" token, and the modifier list is
duplicate-free. -/
theorem c10_format_hotkey_spec_witness :
    "CommandOrControl" ∈ (formatHotkeyLists ["Control", "Meta", "k"]).1 ∧
    (formatHotkeyLists ["Control", "Meta", "k"]).1.Nodup := by
  have h := c10_format_hotkey_spec ["Control", "Meta", "k"]
  exact ⟨h.2.2.2.2 "Control" (by decide) (by decide), h.2.1⟩

end Spiegel
